import Mathlib

/-!
# EasyApt backend: shallow embedding and verification

A shallow embedding of the EasyApt appointment-booking backend
(`backend/app/auth.py`, `backend/app/appointments.py`, `backend/app/models.py`)
and proofs about its scheduling and authentication logic.

Modelling conventions:
* `datetime` values are modelled as `Int` instants (seconds since an epoch,
  naive UTC).  The timezone normalization in `reschedule_appointment`
  (`astimezone(timezone.utc).replace(tzinfo=None)`) maps an aware datetime to
  the same UTC instant, so on this representation it is the identity.
* The SQL store is a `DB` record of lists; primary-key autoincrement is an
  explicit counter.  An ORM row mutation + commit is an update-by-primary-key
  on the list.
* Each HTTP handler becomes a function returning `Except ApiError α × DB`:
  Python `raise HTTPException` is `Except.error` (with the state as committed
  so far, since failed-login commits counter increments before raising).
* The notification dispatcher is external; a dispatch call is modelled as a
  fallible call whose outcome is a `Bool` parameter and which never touches
  the database; the `try/except` around each dispatch discards the outcome.
* Argon2 hashing is modelled abstractly as an injective encoding, with
  verification succeeding exactly on the matching password.
-/

/-! ## Data model (`models.py`) -/

structure User where
  id : Nat
  email : String
  password_hash : String
  role : String
  failed_login_attempts : Nat
  lockout_until : Option Int
  last_active : Option Int
  deriving Repr, DecidableEq

structure PatientProfile where
  id : Nat
  user_id : Nat
  full_name : String
  phone : String
  deriving Repr, DecidableEq

structure Provider where
  id : Nat
  name : String
  specialty : Option String
  location : Option String
  deriving Repr, DecidableEq

structure Appointment where
  id : Nat
  patient_id : Nat
  provider_id : Nat
  start_time : Int
  end_time : Int
  status : String
  reason : Option String
  deriving Repr, DecidableEq

/-- Response row of the provider dashboard (`ProviderAppointment` schema). -/
structure ProviderAppointment where
  id : Nat
  start_time : Int
  end_time : Int
  status : String
  reason : Option String
  patient_name : Option String
  deriving Repr, DecidableEq

/-- The relational store plus autoincrement counters. -/
structure DB where
  users : List User
  profiles : List PatientProfile
  providers : List Provider
  appointments : List Appointment
  next_user_id : Nat
  next_appt_id : Nat
  deriving Repr, DecidableEq

/-- Error outcomes of the handlers, one constructor per distinct
`HTTPException` site family. -/
inductive ApiError where
  | providerNotFound
  | invalidRange
  | slotConflict
  | appointmentNotFound
  | forbidden
  | invalidCredentials
  | accountLocked
  | sessionExpired
  | weakPassword
  | duplicateEmail
  deriving Repr, DecidableEq

/-- HTTP status code attached to each error in the source. -/
def statusCode : ApiError → Nat
  | ApiError.providerNotFound => 404
  | ApiError.invalidRange => 400
  | ApiError.slotConflict => 400
  | ApiError.appointmentNotFound => 404
  | ApiError.forbidden => 403
  | ApiError.invalidCredentials => 401
  | ApiError.accountLocked => 403
  | ApiError.sessionExpired => 401
  | ApiError.weakPassword => 400
  | ApiError.duplicateEmail => 400

/-- UPDATE by primary key on the user table (ORM row mutation + commit). -/
def DB.updateUser (db : DB) (u : User) : DB :=
  { db with users := db.users.map (fun x => if x.id == u.id then u else x) }

/-- UPDATE by primary key on the appointment table. -/
def DB.updateAppt (db : DB) (a : Appointment) : DB :=
  { db with appointments :=
      db.appointments.map (fun x => if x.id == a.id then a else x) }

/-! ## Notification dispatcher (modelled as an external fallible call) -/

/-- A dispatch call to the notification service: the `Bool` is whether the
external service succeeds; the database is untouched either way. -/
def dispatch (outcome : Bool) : Except String Unit :=
  if outcome then Except.ok () else Except.error "dispatch failed"

/-- The `try: await notification_service...; except Exception as e: print(...)`
wrapper around each dispatch call: the exception is caught and discarded. -/
def tryDispatch (outcome : Bool) : Unit :=
  match dispatch outcome with
  | Except.ok _ => ()
  | Except.error _ => ()

/-! ## Password policy and hashing (`auth.py`) -/

/-- Python `re` semantics of `.` (no DOTALL): any character except newline. -/
def reDot (c : Char) : Bool := c != '\n'

/-- Backtracking semantics of `.*K` for a character class `K`, anchored at the
current position: either `K` matches the next character, or `.` consumes one
non-newline character and matching continues. -/
def reDotStarClass (K : Char → Bool) : List Char → Bool
  | [] => false
  | c :: rest => K c || (reDot c && reDotStarClass K rest)

/-- Semantics of `$` in Python `re` (no MULTILINE): matches when the remaining
input is empty or a single final newline. -/
def reDollar : List Char → Bool
  | [] => true
  | [c] => c == '\n'
  | _ :: _ :: _ => false

/-- Backtracking semantics of `.{n,}$`: consume at least `n` non-newline
characters, then greedily more, then `$`. -/
def reDotAtLeastThenDollar : Nat → List Char → Bool
  | 0, [] => reDollar []
  | Nat.succ _, [] => false
  | n, c :: rest =>
    match n with
    | 0 => reDollar (c :: rest) || (reDot c && reDotAtLeastThenDollar 0 rest)
    | Nat.succ m => reDot c && reDotAtLeastThenDollar m rest

/-- The code-point ranges of Unicode general category `Nd` (decimal digit),
Unicode 15.0 — the class that Python's `\d` matches on a `str` pattern
(`re` without `re.ASCII`).  680 code points in 63 ranges. -/
def ndRanges : List (Nat × Nat) :=
  [(0x0030, 0x0039), (0x0660, 0x0669), (0x06F0, 0x06F9), (0x07C0, 0x07C9),
   (0x0966, 0x096F), (0x09E6, 0x09EF), (0x0A66, 0x0A6F), (0x0AE6, 0x0AEF),
   (0x0B66, 0x0B6F), (0x0BE6, 0x0BEF), (0x0C66, 0x0C6F), (0x0CE6, 0x0CEF),
   (0x0D66, 0x0D6F), (0x0DE6, 0x0DEF), (0x0E50, 0x0E59), (0x0ED0, 0x0ED9),
   (0x0F20, 0x0F29), (0x1040, 0x1049), (0x1090, 0x1099), (0x17E0, 0x17E9),
   (0x1810, 0x1819), (0x1946, 0x194F), (0x19D0, 0x19D9), (0x1A80, 0x1A89),
   (0x1A90, 0x1A99), (0x1B50, 0x1B59), (0x1BB0, 0x1BB9), (0x1C40, 0x1C49),
   (0x1C50, 0x1C59), (0xA620, 0xA629), (0xA8D0, 0xA8D9), (0xA900, 0xA909),
   (0xA9D0, 0xA9D9), (0xA9F0, 0xA9F9), (0xAA50, 0xAA59), (0xABF0, 0xABF9),
   (0xFF10, 0xFF19), (0x104A0, 0x104A9), (0x10D30, 0x10D39),
   (0x11066, 0x1106F), (0x110F0, 0x110F9), (0x11136, 0x1113F),
   (0x111D0, 0x111D9), (0x112F0, 0x112F9), (0x11450, 0x11459),
   (0x114D0, 0x114D9), (0x11650, 0x11659), (0x116C0, 0x116C9),
   (0x11730, 0x11739), (0x118E0, 0x118E9), (0x11950, 0x11959),
   (0x11C50, 0x11C59), (0x11D50, 0x11D59), (0x11DA0, 0x11DA9),
   (0x11F50, 0x11F59), (0x16A60, 0x16A69), (0x16AC0, 0x16AC9),
   (0x16B50, 0x16B59), (0x1D7CE, 0x1D7FF), (0x1E140, 0x1E149),
   (0x1E2F0, 0x1E2F9), (0x1E4F0, 0x1E4F9), (0x1E950, 0x1E959),
   (0x1FBF0, 0x1FBF9)]

/-- Python's `\d` on a `str` pattern: any Unicode decimal digit (category
`Nd`).  The exact set is fixed by the interpreter's Unicode version; this is
the Unicode 15.0 table (Python 3.12). -/
def isPyDigit (c : Char) : Bool :=
  ndRanges.any (fun r => r.1 ≤ c.toNat && c.toNat ≤ r.2)

/-- `PASSWORD_POLICY = re.compile(r"^(?=.*[a-z])(?=.*[A-Z])(?=.*\d)(?=.*[^A-Za-z0-9]).{12,}$")`
with `meets_password_policy(password) = bool(PASSWORD_POLICY.match(password))`.
`re.match` anchors at the start; the four lookaheads and the `.{12,}$` body
are evaluated at position 0.  `\d` is any Unicode decimal digit
(`isPyDigit`); `[a-z]`, `[A-Z]` and `[^A-Za-z0-9]` are the literal ASCII
classes (`Char.isAlphanum` is exactly A-Za-z0-9). -/
def meets_password_policy (password : String) : Bool :=
  let s := password.data
  reDotStarClass Char.isLower s &&
  reDotStarClass Char.isUpper s &&
  reDotStarClass isPyDigit s &&
  reDotStarClass (fun c => !c.isAlphanum) s &&
  reDotAtLeastThenDollar 12 s

/-- The password policy as the spec words it: length at least 12, and at
least one lowercase letter, one uppercase letter, one digit, and one
non-alphanumeric character — with the two ambiguous class words pinned to
the classes the program's regex uses: "digit" is any Unicode decimal digit
(Python's `\d`) and "non-alphanumeric" is any character outside `A-Za-z0-9`.
Written from the spec, to compare with `meets_password_policy`. -/
def specPasswordOk (password : String) : Bool :=
  let s := password.data
  decide (12 ≤ s.length) &&
  s.any Char.isLower &&
  s.any Char.isUpper &&
  s.any isPyDigit &&
  s.any (fun c => !c.isAlphanum)

/-- Abstract model of `ph.hash` (argon2): an injective encoding. -/
def get_password_hash (password : String) : String := "argon2:" ++ password

/-- Abstract model of `verify_password`: verification succeeds exactly when
the stored hash is the hash of the supplied password. -/
def verify_password (plain hashed : String) : Bool :=
  hashed == get_password_hash plain

/-! ## Auth handlers (`auth.py`) -/

/-- `settings.ACCESS_TOKEN_EXPIRE_MINUTES` (default 60). -/
def ACCESS_TOKEN_EXPIRE_MINUTES : Int := 60

/-- The decoded claims of the JWT issued by `create_access_token`. -/
structure Token where
  sub : Nat
  role : String
  exp : Int
  deriving Repr, DecidableEq

/-- `create_access_token({"sub": str(user.id), "role": user.role}, 60 minutes)`. -/
def create_access_token (uid : Nat) (role : String) (now : Int) : Token :=
  { sub := uid, role := role, exp := now + ACCESS_TOKEN_EXPIRE_MINUTES * 60 }

/-- `get_user_by_email`: first user row with the given email. -/
def get_user_by_email (db : DB) (email : String) : Option User :=
  db.users.find? (fun u => u.email == email)

/-- The body of `login` after the lockout check has passed: password
verification, failed-attempt increment with 15-minute lockout at 5 attempts,
counter reset on success. -/
def loginAfterLockCheck (db : DB) (user : User) (password : String)
    (now : Int) : Except ApiError Token × DB :=
  if !verify_password password user.password_hash then
    let u1 := { user with failed_login_attempts := user.failed_login_attempts + 1 }
    if u1.failed_login_attempts ≥ 5 then
      let u2 := { u1 with lockout_until := some (now + 15 * 60) }
      (Except.error ApiError.accountLocked, db.updateUser u2)
    else
      (Except.error ApiError.invalidCredentials, db.updateUser u1)
  else
    let u2 := { user with failed_login_attempts := 0, lockout_until := none,
                          last_active := some now }
    (Except.ok (create_access_token user.id user.role now), db.updateUser u2)

/-- `login` (auth.py): lockout check, then password verification with
failed-attempt tracking and 15-minute lockout, counter reset on success.
CAPTCHA verification is advisory-only (logged, never blocking) and so has no
effect to model.  `now` is `datetime.utcnow()` in seconds. -/
def login (db : DB) (email password : String) (now : Int) :
    Except ApiError Token × DB :=
  match get_user_by_email db email with
  | none => (Except.error ApiError.invalidCredentials, db)
  | some user =>
    match user.lockout_until with
    | some lu =>
      if lu > now then
        (Except.error ApiError.accountLocked, db)
      else
        loginAfterLockCheck db user password now
    | none => loginAfterLockCheck db user password now

/-- `get_current_user` (auth.py), after token decoding has resolved the
subject to `uid` (the token-validity premise): looks the user up, enforces the
30-second inactivity timeout, and on success updates `last_active` to `now`. -/
def get_current_user (db : DB) (uid : Nat) (now : Int) :
    Except ApiError User × DB :=
  match db.users.find? (fun u => u.id == uid) with
  | none => (Except.error ApiError.invalidCredentials, db)
  | some user =>
    match user.last_active with
    | some la =>
      if now - la > 30 then
        (Except.error ApiError.sessionExpired, db)
      else
        let u2 := { user with last_active := some now }
        (Except.ok u2, db.updateUser u2)
    | none =>
      let u2 := { user with last_active := some now }
      (Except.ok u2, db.updateUser u2)

/-- `register` (auth.py): duplicate-email check, password policy, then insert
and a best-effort welcome email.  `role or "patient"` treats `None` and the
empty string as absent.  `notifyOk` is the external dispatcher's outcome. -/
def register (notifyOk : Bool) (db : DB) (email password : String)
    (role : Option String) : Except ApiError User × DB :=
  match get_user_by_email db email with
  | some _ => (Except.error ApiError.duplicateEmail, db)
  | none =>
    if !meets_password_policy password then
      (Except.error ApiError.weakPassword, db)
    else
      let user : User :=
        { id := db.next_user_id, email := email,
          password_hash := get_password_hash password,
          role := match role with
                  | none => "patient"
                  | some r => if r == "" then "patient" else r,
          failed_login_attempts := 0, lockout_until := none, last_active := none }
      let db2 := { db with users := db.users ++ [user],
                           next_user_id := db.next_user_id + 1 }
      let _ := tryDispatch notifyOk
      (Except.ok user, db2)

/-! ## Appointment handlers (`appointments.py`) -/

/-- Request body of `POST /appointments/book`. -/
structure AppointmentBook where
  provider_id : Nat
  start_time : Int
  end_time : Int
  reason : Option String
  deriving Repr, DecidableEq

/-- The overlap WHERE clause of `book_appointment`: an existing `booked`
appointment of the provider with `start_time < end` and `end_time > start`. -/
def overlapRow (pid : Nat) (s e : Int) (a : Appointment) : Bool :=
  a.provider_id == pid && a.status == "booked" &&
  decide (a.start_time < e) && decide (a.end_time > s)

/-- `book_appointment`: provider existence, range validation, overlap check,
insert in `booked` state, then a best-effort confirmation notification
(`notifyOk` is the dispatcher's outcome; its failure is caught). -/
def book_appointment (notifyOk : Bool) (db : DB) (uid : Nat)
    (booking : AppointmentBook) : Except ApiError Appointment × DB :=
  match db.providers.find? (fun p => p.id == booking.provider_id) with
  | none => (Except.error ApiError.providerNotFound, db)
  | some _ =>
    if booking.start_time ≥ booking.end_time then
      (Except.error ApiError.invalidRange, db)
    else if db.appointments.any
        (overlapRow booking.provider_id booking.start_time booking.end_time) then
      (Except.error ApiError.slotConflict, db)
    else
      let appt : Appointment :=
        { id := db.next_appt_id, patient_id := uid,
          provider_id := booking.provider_id,
          start_time := booking.start_time, end_time := booking.end_time,
          status := "booked", reason := booking.reason }
      let db2 := { db with appointments := db.appointments ++ [appt],
                           next_appt_id := db.next_appt_id + 1 }
      let _ := tryDispatch notifyOk
      (Except.ok appt, db2)

/-- The overlap WHERE clause of `reschedule_appointment`: same predicate as
booking but excluding the appointment's own id. -/
def overlapRowExcl (pid aid : Nat) (s e : Int) (a : Appointment) : Bool :=
  a.provider_id == pid && a.status == "booked" && a.id != aid &&
  decide (a.start_time < e) && decide (a.end_time > s)

/-- `reschedule_appointment`: lookup, ownership, timezone normalization (the
identity on UTC instants), range validation, overlap check excluding the own
id, in-place start/end update, best-effort reschedule email. -/
def reschedule_appointment (notifyOk : Bool) (db : DB) (uid aid : Nat)
    (newStart newEnd : Int) : Except ApiError Appointment × DB :=
  match db.appointments.find? (fun a => a.id == aid) with
  | none => (Except.error ApiError.appointmentNotFound, db)
  | some appt =>
    if appt.patient_id != uid then
      (Except.error ApiError.forbidden, db)
    else if newStart ≥ newEnd then
      (Except.error ApiError.invalidRange, db)
    else if db.appointments.any
        (overlapRowExcl appt.provider_id appt.id newStart newEnd) then
      (Except.error ApiError.slotConflict, db)
    else
      let appt2 := { appt with start_time := newStart, end_time := newEnd }
      let db2 := db.updateAppt appt2
      let _ := tryDispatch notifyOk
      (Except.ok appt2, db2)

/-- `cancel_appointment`: lookup, ownership, set status to `cancelled` (soft
delete), best-effort cancellation email, message response. -/
def cancel_appointment (notifyOk : Bool) (db : DB) (uid aid : Nat) :
    Except ApiError String × DB :=
  match db.appointments.find? (fun a => a.id == aid) with
  | none => (Except.error ApiError.appointmentNotFound, db)
  | some appt =>
    if appt.patient_id != uid then
      (Except.error ApiError.forbidden, db)
    else
      let appt2 := { appt with status := "cancelled" }
      let db2 := db.updateAppt appt2
      let _ := tryDispatch notifyOk
      (Except.ok "Appointment cancelled", db2)

/-- Insertion step of ORDER BY start_time. -/
def insertByStart (r : ProviderAppointment) :
    List ProviderAppointment → List ProviderAppointment
  | [] => [r]
  | x :: xs =>
    if r.start_time ≤ x.start_time then r :: x :: xs
    else x :: insertByStart r xs

/-- ORDER BY start_time as an insertion sort. -/
def sortByStart (l : List ProviderAppointment) : List ProviderAppointment :=
  l.foldr insertByStart []

/-- Row construction of the dashboard query: appointment columns plus the
LEFT OUTER JOIN of the patient profile on `user_id == patient_id`. -/
def toDashboardRow (db : DB) (a : Appointment) : ProviderAppointment :=
  { id := a.id, start_time := a.start_time, end_time := a.end_time,
    status := a.status, reason := a.reason,
    patient_name :=
      match db.profiles.find? (fun p => p.user_id == a.patient_id) with
      | some p => some p.full_name
      | none => none }

/-- `get_provider_dashboard`: requires role `provider`, then selects the
`booked` appointments whose `provider_id` equals the requesting user's
User-table id (`current_user.id`), ordered by start time, joined with the
patient profile for the display name. -/
def get_provider_dashboard (db : DB) (current_user : User) :
    Except ApiError (List ProviderAppointment) :=
  if current_user.role != "provider" then
    Except.error ApiError.forbidden
  else
    Except.ok (sortByStart
      ((db.appointments.filter
          (fun a => a.provider_id == current_user.id && a.status == "booked")).map
        (toDashboardRow db)))

/-! ## Operation sequences and invariants -/

/-- A scheduling operation issued by an authenticated user. -/
inductive Op where
  | book (uid : Nat) (booking : AppointmentBook)
  | reschedule (uid aid : Nat) (newStart newEnd : Int)
  | cancel (uid aid : Nat)
  deriving Repr, DecidableEq

/-- State transition of one scheduling operation (dispatcher outcome is
irrelevant to the state; fixed to `true`). -/
def applyOp (db : DB) : Op → DB
  | Op.book uid booking => (book_appointment true db uid booking).2
  | Op.reschedule uid aid s e => (reschedule_appointment true db uid aid s e).2
  | Op.cancel uid aid => (cancel_appointment true db uid aid).2

/-- Sequential execution of scheduling operations. -/
def applyOps (db : DB) (ops : List Op) : DB :=
  ops.foldl applyOp db

/-- Appointment-table well-formedness: ids are below the autoincrement
counter and pairwise distinct. -/
def WFAppointments (db : DB) : Prop :=
  (∀ a ∈ db.appointments, a.id < db.next_appt_id) ∧
  db.appointments.Pairwise (fun a b => a.id ≠ b.id)

/-- The no-overlap invariant: no two distinct `booked` appointments of the
same provider have intersecting half-open time ranges. -/
def NoOverlap (db : DB) : Prop :=
  ∀ a ∈ db.appointments, ∀ b ∈ db.appointments,
    a.id ≠ b.id → a.provider_id = b.provider_id →
    a.status = "booked" → b.status = "booked" →
    ¬(a.start_time < b.end_time ∧ b.start_time < a.end_time)

/-! ## General lemmas -/

/-- A list containing an element satisfying `p` has a `find?` result. -/
theorem exists_find?_of_mem {α} {l : List α} {p : α → Bool} {x : α}
    (hx : x ∈ l) (hpx : p x = true) : ∃ a, l.find? p = some a := by
  induction l with
  | nil => cases hx
  | cons b t ih =>
    by_cases hb : p b
    · exact ⟨b, List.find?_cons_of_pos t hb⟩
    · rcases List.mem_cons.mp hx with rfl | hxt
      · exact absurd hpx hb
      · rcases ih hxt with ⟨a, ha⟩
        exact ⟨a, by rw [List.find?_cons_of_neg t (by simpa using hb), ha]⟩

/-- In an id-pairwise-distinct appointment list, the id determines the row. -/
theorem appt_id_unique {l : List Appointment}
    (hpw : l.Pairwise (fun a b => a.id ≠ b.id)) {x y : Appointment}
    (hx : x ∈ l) (hy : y ∈ l) (h : x.id = y.id) : x = y := by
  by_contra hne
  have hs : Symmetric (fun a b : Appointment => a.id ≠ b.id) :=
    fun _ _ hab h2 => hab h2.symm
  exact hpw.forall hs hx hy hne h

/-- A pointwise-identity map is the identity. -/
theorem list_map_id_of_mem {α} {l : List α} {f : α → α} (h : ∀ x ∈ l, f x = x) :
    l.map f = l := by
  rw [List.map_congr_left h]; exact List.map_id' l

/-! ## Concrete fixtures -/

def dbEmpty : DB :=
  { users := [], profiles := [], providers := [], appointments := [],
    next_user_id := 1, next_appt_id := 1 }

def provider1 : Provider :=
  { id := 1, name := "Dr A", specialty := none, location := none }

def dbProv : DB := { dbEmpty with providers := [provider1] }

/-! ## C4: booking with start ≥ end -/

/-- C4 counterexample: at a provider id with no Provider row, a booking with
`start_time ≥ end_time` fails with `providerNotFound` (404), not
`invalidRange` (400): the provider-existence check runs first. -/
theorem C4_counterexample :
    (book_appointment true dbEmpty 1
        { provider_id := 7, start_time := 5, end_time := 3, reason := none }).1
      = Except.error ApiError.providerNotFound ∧
    ApiError.providerNotFound ≠ ApiError.invalidRange ∧
    ((5 : Int) ≥ 3) := ⟨rfl, by decide, by decide⟩

/-- C4 (amended): for every booking request whose provider id names an
existing provider and whose `start_time ≥ end_time`, booking fails with
`invalidRange` (400) and the database is unchanged (no appointment created). -/
theorem C4_invalid_range (notifyOk : Bool) (db : DB) (uid : Nat)
    (b : AppointmentBook) (hp : ∃ p ∈ db.providers, p.id = b.provider_id)
    (hr : b.start_time ≥ b.end_time) :
    book_appointment notifyOk db uid b = (Except.error ApiError.invalidRange, db) ∧
    statusCode ApiError.invalidRange = 400 := by
  obtain ⟨p, hmem, hid⟩ := hp
  obtain ⟨q, hq⟩ : ∃ a, db.providers.find? (fun x => x.id == b.provider_id) = some a :=
    exists_find?_of_mem hmem (by simp [hid])
  refine ⟨?_, rfl⟩
  simp [book_appointment, hq, hr]

/-- C4 witness: a concrete degenerate range at an existing provider. -/
theorem C4_witness :
    book_appointment true dbProv 1
        { provider_id := 1, start_time := 10, end_time := 10, reason := none }
      = (Except.error ApiError.invalidRange, dbProv) ∧
    statusCode ApiError.invalidRange = 400 :=
  C4_invalid_range true dbProv 1 _ ⟨provider1, by decide, rfl⟩ (by decide)

/-! ## C6: notification failures never propagate -/

/-- C6: the result (response value and database state) of book, reschedule,
cancel, and register does not depend on the notification dispatcher's
outcome: a failed dispatch is indistinguishable from a successful one, and
the committed state change is identical. -/
theorem C6_notification_failure_invisible :
    (∀ (o1 o2 : Bool) (db : DB) (uid : Nat) (b : AppointmentBook),
       book_appointment o1 db uid b = book_appointment o2 db uid b) ∧
    (∀ (o1 o2 : Bool) (db : DB) (uid aid : Nat) (s e : Int),
       reschedule_appointment o1 db uid aid s e =
         reschedule_appointment o2 db uid aid s e) ∧
    (∀ (o1 o2 : Bool) (db : DB) (uid aid : Nat),
       cancel_appointment o1 db uid aid = cancel_appointment o2 db uid aid) ∧
    (∀ (o1 o2 : Bool) (db : DB) (email pw : String) (role : Option String),
       register o1 db email pw role = register o2 db email pw role) :=
  ⟨fun _ _ _ _ _ => rfl, fun _ _ _ _ _ _ _ => rfl,
   fun _ _ _ _ _ => rfl, fun _ _ _ _ _ _ => rfl⟩

/-! ## C7: inactivity timeout -/

/-- C7: with a valid token resolving to `user`, if more than 30 seconds have
elapsed since `last_active` the request fails with `sessionExpired` (401) and
the database (hence `last_active`) is unchanged; and every successful
authentication returns a user whose `last_active` is `now` and stores it. -/
theorem C7_inactivity_timeout (db : DB) (uid : Nat) (now : Int) (user : User)
    (hfind : db.users.find? (fun u => u.id == uid) = some user) :
    (∀ la, user.last_active = some la → now - la > 30 →
       get_current_user db uid now = (Except.error ApiError.sessionExpired, db) ∧
       statusCode ApiError.sessionExpired = 401) ∧
    (∀ u2 db2, get_current_user db uid now = (Except.ok u2, db2) →
       u2.last_active = some now ∧ db2 = db.updateUser u2) := by
  constructor
  · intro la hla hgt
    refine ⟨?_, rfl⟩
    simp [get_current_user, hfind, hla, hgt]
  · intro u2 db2 h
    rcases hla : user.last_active with _ | la
    · simp only [get_current_user, hfind, hla] at h
      simp only [Prod.mk.injEq, Except.ok.injEq] at h
      obtain ⟨h1, h2⟩ := h
      subst h1; subst h2
      exact ⟨rfl, rfl⟩
    · simp only [get_current_user, hfind, hla] at h
      by_cases hgt : now - la > 30
      · rw [if_pos hgt] at h
        exact absurd h (by simp)
      · rw [if_neg hgt] at h
        simp only [Prod.mk.injEq, Except.ok.injEq] at h
        obtain ⟨h1, h2⟩ := h
        subst h1; subst h2
        exact ⟨rfl, rfl⟩

def userW7 : User :=
  { id := 1, email := "p@x.com", password_hash := "argon2:pw", role := "patient",
    failed_login_attempts := 0, lockout_until := none, last_active := some 0 }

def dbW7 : DB := { dbEmpty with users := [userW7] }

/-- C7 witness: 100 seconds of inactivity expire the session concretely. -/
theorem C7_witness :
    get_current_user dbW7 1 100 = (Except.error ApiError.sessionExpired, dbW7) ∧
    statusCode ApiError.sessionExpired = 401 :=
  (C7_inactivity_timeout dbW7 1 100 userW7 rfl).1 0 rfl (by decide)

/-! ## C9: double cancel is idempotent -/

/-- C9: cancelling an already-cancelled appointment owned by the requester
returns the same success message as the first cancel and leaves the database
(and so every field of the appointment) unchanged. -/
theorem C9_double_cancel_idempotent (notifyOk : Bool) (db : DB) (uid aid : Nat)
    (appt : Appointment)
    (hfind : db.appointments.find? (fun a => a.id == aid) = some appt)
    (hown : appt.patient_id = uid)
    (hst : appt.status = "cancelled")
    (hpw : db.appointments.Pairwise (fun a b => a.id ≠ b.id)) :
    cancel_appointment notifyOk db uid aid =
      (Except.ok "Appointment cancelled", db) := by
  have hmem := List.mem_of_find?_eq_some hfind
  have heq : ({ appt with status := "cancelled" } : Appointment) = appt := by
    cases appt; simp_all
  simp only [cancel_appointment, hfind]
  rw [if_neg (by simp [hown])]
  rw [heq]
  have hmap : db.appointments.map
      (fun x => if x.id == appt.id then appt else x) = db.appointments := by
    apply list_map_id_of_mem
    intro x hx
    by_cases hxe : (x.id == appt.id) = true
    · have hxa : x = appt := appt_id_unique hpw hx hmem (by simpa using hxe)
      simp [hxe, hxa]
    · simp [hxe]
  simp only [DB.updateAppt]
  rw [hmap]

def apptW9 : Appointment :=
  { id := 1, patient_id := 1, provider_id := 1, start_time := 100,
    end_time := 200, status := "cancelled", reason := none }

def dbW9 : DB := { dbProv with appointments := [apptW9], next_appt_id := 2 }

/-- C9 witness: concrete second cancel of a cancelled appointment. -/
theorem C9_witness :
    cancel_appointment true dbW9 1 1 = (Except.ok "Appointment cancelled", dbW9) :=
  C9_double_cancel_idempotent true dbW9 1 1 apptW9 rfl rfl rfl (by decide)

/-! ## C2: account lockout lifecycle -/

/-- When the user is not locked out, `login` proceeds to the password check. -/
theorem login_not_locked (db : DB) (email password : String) (now : Int)
    (user : User) (hus : get_user_by_email db email = some user)
    (hnl : user.lockout_until = none ∨
           ∃ lu, user.lockout_until = some lu ∧ lu ≤ now) :
    login db email password now = loginAfterLockCheck db user password now := by
  rcases hnl with h0 | ⟨lu, hlu, hle⟩
  · simp [login, hus, h0]
  · simp only [login, hus, hlu]
    rw [if_neg (not_lt.mpr hle)]

/-- Failed-password branch below the lockout threshold. -/
theorem loginAfterLockCheck_wrong_small (db : DB) (user : User)
    (password : String) (now : Int)
    (hv : verify_password password user.password_hash = false)
    (hlt : user.failed_login_attempts + 1 < 5) :
    loginAfterLockCheck db user password now =
      (Except.error ApiError.invalidCredentials,
       db.updateUser
         { user with failed_login_attempts := user.failed_login_attempts + 1 }) := by
  simp only [loginAfterLockCheck, hv, Bool.not_false, if_true]
  rw [if_neg (by omega)]

/-- Failed-password branch reaching the lockout threshold. -/
theorem loginAfterLockCheck_wrong_lock (db : DB) (user : User)
    (password : String) (now : Int)
    (hv : verify_password password user.password_hash = false)
    (hge : user.failed_login_attempts + 1 ≥ 5) :
    loginAfterLockCheck db user password now =
      (Except.error ApiError.accountLocked,
       db.updateUser
         { user with failed_login_attempts := user.failed_login_attempts + 1,
                     lockout_until := some (now + 15 * 60) }) := by
  simp only [loginAfterLockCheck, hv, Bool.not_false, if_true]
  rw [if_pos (by omega)]

/-- Correct-password branch: counters reset, token issued. -/
theorem loginAfterLockCheck_correct (db : DB) (user : User)
    (password : String) (now : Int)
    (hv : verify_password password user.password_hash = true) :
    loginAfterLockCheck db user password now =
      (Except.ok (create_access_token user.id user.role now),
       db.updateUser
         { user with failed_login_attempts := 0, lockout_until := none,
                     last_active := some now }) := by
  simp [loginAfterLockCheck, hv]

/-- C2: account lockout lifecycle.  (i) A failed login below the threshold
increments the failed-attempt counter and returns `invalidCredentials` (401);
(ii) the failed login that brings the counter to 5 sets a 15-minute lockout
and returns `accountLocked` (403); (iii) while the lockout window is active
every attempt returns `accountLocked` (403) regardless of the password, with
no state change; (iv) once the window has elapsed, a correct-password login
succeeds, resets the counter to 0 and clears the lockout. -/
theorem C2_lockout_lifecycle :
    (∀ (db : DB) (email password : String) (now : Int) (user : User),
       get_user_by_email db email = some user →
       (user.lockout_until = none ∨
        ∃ lu, user.lockout_until = some lu ∧ lu ≤ now) →
       verify_password password user.password_hash = false →
       user.failed_login_attempts + 1 < 5 →
       login db email password now =
         (Except.error ApiError.invalidCredentials,
          db.updateUser
            { user with failed_login_attempts := user.failed_login_attempts + 1 }) ∧
       statusCode ApiError.invalidCredentials = 401) ∧
    (∀ (db : DB) (email password : String) (now : Int) (user : User),
       get_user_by_email db email = some user →
       (user.lockout_until = none ∨
        ∃ lu, user.lockout_until = some lu ∧ lu ≤ now) →
       verify_password password user.password_hash = false →
       user.failed_login_attempts + 1 ≥ 5 →
       login db email password now =
         (Except.error ApiError.accountLocked,
          db.updateUser
            { user with failed_login_attempts := user.failed_login_attempts + 1,
                        lockout_until := some (now + 15 * 60) }) ∧
       statusCode ApiError.accountLocked = 403) ∧
    (∀ (db : DB) (email password : String) (now lu : Int) (user : User),
       get_user_by_email db email = some user →
       user.lockout_until = some lu → lu > now →
       login db email password now = (Except.error ApiError.accountLocked, db) ∧
       statusCode ApiError.accountLocked = 403) ∧
    (∀ (db : DB) (email password : String) (now : Int) (user : User),
       get_user_by_email db email = some user →
       (user.lockout_until = none ∨
        ∃ lu, user.lockout_until = some lu ∧ lu ≤ now) →
       verify_password password user.password_hash = true →
       login db email password now =
         (Except.ok (create_access_token user.id user.role now),
          db.updateUser
            { user with failed_login_attempts := 0, lockout_until := none,
                        last_active := some now })) := by
  refine ⟨?_, ?_, ?_, ?_⟩
  · intro db email password now user hus hnl hv hlt
    rw [login_not_locked db email password now user hus hnl]
    exact ⟨loginAfterLockCheck_wrong_small db user password now hv hlt, rfl⟩
  · intro db email password now user hus hnl hv hge
    rw [login_not_locked db email password now user hus hnl]
    exact ⟨loginAfterLockCheck_wrong_lock db user password now hv hge, rfl⟩
  · intro db email password now lu user hus hlu hgt
    refine ⟨?_, rfl⟩
    simp only [login, hus, hlu]
    rw [if_pos hgt]
  · intro db email password now user hus hnl hv
    rw [login_not_locked db email password now user hus hnl]
    exact loginAfterLockCheck_correct db user password now hv

def userL : User :=
  { id := 1, email := "u@x.com", password_hash := get_password_hash "Correct1!Pass",
    role := "patient", failed_login_attempts := 4, lockout_until := none,
    last_active := none }

def dbL : DB := { dbEmpty with users := [userL] }

/-- C2 witness: the 5th consecutive failed login concretely locks the account
for 15 minutes and answers 403. -/
theorem C2_witness :
    login dbL "u@x.com" "wrong-password" 0 =
      (Except.error ApiError.accountLocked,
       dbL.updateUser
         { userL with failed_login_attempts := 5,
                      lockout_until := some 900 }) ∧
    statusCode ApiError.accountLocked = 403 :=
  C2_lockout_lifecycle.2.1 dbL "u@x.com" "wrong-password" 0 userL rfl
    (Or.inl rfl) (by decide) (by decide)

/-! ## C5: password policy -/

/-- On newline-free input the lookahead `(?=.*K)` is exactly `List.any K`. -/
theorem reDotStarClass_eq_any (K : Char → Bool) {s : List Char}
    (h : '\n' ∉ s) : reDotStarClass K s = s.any K := by
  induction s with
  | nil => rfl
  | cons c rest ih =>
    have hc : c ≠ '\n' := fun e => h (e ▸ List.mem_cons_self c rest)
    have hdot : reDot c = true := by simp [reDot, hc]
    have hrest : '\n' ∉ rest := fun hr => h (List.mem_cons_of_mem c hr)
    simp [reDotStarClass, hdot, ih hrest]

/-- On newline-free input `.{n,}$` is exactly the length test. -/
theorem reDotAtLeastThenDollar_eq_length {s : List Char} (h : '\n' ∉ s) :
    ∀ n, reDotAtLeastThenDollar n s = decide (n ≤ s.length) := by
  induction s with
  | nil => intro n; cases n <;> simp [reDotAtLeastThenDollar, reDollar]
  | cons c rest ih =>
    intro n
    have hc : c ≠ '\n' := fun e => h (e ▸ List.mem_cons_self c rest)
    have hdot : reDot c = true := by simp [reDot, hc]
    have hrest : '\n' ∉ rest := fun hr => h (List.mem_cons_of_mem c hr)
    cases n with
    | zero => simp [reDotAtLeastThenDollar, hdot, ih hrest 0]
    | succ m =>
      simp [reDotAtLeastThenDollar, hdot, ih hrest m, Nat.succ_le_succ_iff]

/-- On newline-free passwords the regex policy coincides with the spec's
five-condition policy. -/
theorem meets_policy_eq_spec_no_newline {password : String}
    (h : '\n' ∉ password.data) :
    meets_password_policy password = specPasswordOk password := by
  rw [Bool.eq_iff_iff]
  simp only [meets_password_policy, specPasswordOk,
    reDotStarClass_eq_any _ h, reDotAtLeastThenDollar_eq_length h 12,
    Bool.and_eq_true, decide_eq_true_eq]
  tauto

def pwNewline : String := "aA1!aaaa\naaa"

/-- C5 counterexample: `pwNewline` has length 12 and contains a lowercase
letter, an uppercase letter, a digit, and a non-alphanumeric character, yet
registration rejects it with the policy error, because `.` in the policy
regex does not match the embedded newline. -/
theorem C5_counterexample :
    specPasswordOk pwNewline = true ∧
    meets_password_policy pwNewline = false ∧
    (register true dbEmpty "fresh@x.com" pwNewline none).1
      = Except.error ApiError.weakPassword :=
  ⟨by decide, by decide, rfl⟩

/-- C5 (amended): for every password containing no newline character and a
fresh email, registration rejects with the policy error exactly the passwords
failing one of {length ≥ 12, ASCII lowercase, ASCII uppercase, Unicode
decimal digit, character outside A-Za-z0-9} and accepts exactly those
satisfying all five (`specPasswordOk`). -/
theorem C5_password_policy (notifyOk : Bool) (db : DB)
    (email password : String) (role : Option String)
    (hfresh : get_user_by_email db email = none)
    (hnl : '\n' ∉ password.data) :
    ((register notifyOk db email password role).1
        = Except.error ApiError.weakPassword ↔ specPasswordOk password = false) ∧
    ((∃ u, (register notifyOk db email password role).1 = Except.ok u)
        ↔ specPasswordOk password = true) := by
  have hm := meets_policy_eq_spec_no_newline hnl
  simp only [register, hfresh]
  cases hs : specPasswordOk password
  · rw [hm, hs]
    simp
  · rw [hm, hs]
    simp

def pwStrong : String := "Abcdefghij1!"

/-- 12 characters, newline-free; the only digit is U+0663 (ARABIC-INDIC
DIGIT THREE), which `\d` matches and which is also outside `A-Za-z0-9`. -/
def pwUnicode : String := "Aaaaaaaaaaa٣"

/-- C5 witness: two concrete applications at fresh emails — an all-ASCII
compliant password, and a password whose only digit (and only
non-`A-Za-z0-9` character) is the Unicode digit U+0663; both are compliant
and accepted. -/
theorem C5_witness :
    (((register true dbEmpty "new@x.com" pwStrong none).1
        = Except.error ApiError.weakPassword ↔ specPasswordOk pwStrong = false) ∧
     ((∃ u, (register true dbEmpty "new@x.com" pwStrong none).1 = Except.ok u)
        ↔ specPasswordOk pwStrong = true)) ∧
    specPasswordOk pwStrong = true ∧
    (((register true dbEmpty "u2@x.com" pwUnicode none).1
        = Except.error ApiError.weakPassword ↔ specPasswordOk pwUnicode = false) ∧
     ((∃ u, (register true dbEmpty "u2@x.com" pwUnicode none).1 = Except.ok u)
        ↔ specPasswordOk pwUnicode = true)) ∧
    specPasswordOk pwUnicode = true :=
  ⟨C5_password_policy true dbEmpty "new@x.com" pwStrong none rfl (by decide),
   by decide,
   C5_password_policy true dbEmpty "u2@x.com" pwUnicode none rfl (by decide),
   by decide⟩

/-! ## C3: reschedule correctness -/

/-- Propositional reading of the reschedule overlap WHERE clause. -/
theorem overlapRowExcl_iff {pid aid : Nat} {s e : Int} {a : Appointment} :
    overlapRowExcl pid aid s e a = true ↔
    a.provider_id = pid ∧ a.status = "booked" ∧ a.id ≠ aid ∧
    a.start_time < e ∧ s < a.end_time := by
  simp [overlapRowExcl, and_assoc]

/-- C3: with the appointment found and owned by the requester and a valid
range, rescheduling onto a range that overlaps another `booked` appointment
of the same provider (own id excluded) fails with `slotConflict` and leaves
the database unchanged; rescheduling to a conflict-free range succeeds,
returning and storing the appointment with only `start_time`/`end_time`
replaced (id, patient_id, provider_id, status, reason unchanged). -/
theorem C3_reschedule_correct (notifyOk : Bool) (db : DB) (uid aid : Nat)
    (newStart newEnd : Int) (appt : Appointment)
    (hfind : db.appointments.find? (fun a => a.id == aid) = some appt)
    (hown : appt.patient_id = uid)
    (hrange : newStart < newEnd) :
    ((∃ other ∈ db.appointments, other.provider_id = appt.provider_id ∧
        other.status = "booked" ∧ other.id ≠ appt.id ∧
        other.start_time < newEnd ∧ newStart < other.end_time) →
      reschedule_appointment notifyOk db uid aid newStart newEnd =
        (Except.error ApiError.slotConflict, db)) ∧
    ((∀ other ∈ db.appointments, other.provider_id = appt.provider_id →
        other.status = "booked" → other.id ≠ appt.id →
        ¬(other.start_time < newEnd ∧ newStart < other.end_time)) →
      reschedule_appointment notifyOk db uid aid newStart newEnd =
        (Except.ok { appt with start_time := newStart, end_time := newEnd },
         db.updateAppt { appt with start_time := newStart, end_time := newEnd })) := by
  constructor
  · intro hconf
    have hany : db.appointments.any
        (overlapRowExcl appt.provider_id appt.id newStart newEnd) = true := by
      rw [List.any_eq_true]
      obtain ⟨o, ho, h1, h2, h3, h4, h5⟩ := hconf
      exact ⟨o, ho, overlapRowExcl_iff.mpr ⟨h1, h2, h3, h4, h5⟩⟩
    simp only [reschedule_appointment, hfind]
    rw [if_neg (by simp [hown]), if_neg (not_le.mpr hrange), if_pos hany]
  · intro hfree
    have hany : db.appointments.any
        (overlapRowExcl appt.provider_id appt.id newStart newEnd) = false := by
      rw [List.any_eq_false]
      intro o ho
      simp only [overlapRowExcl_iff]
      rintro ⟨h1, h2, h3, h4, h5⟩
      exact hfree o ho h1 h2 h3 ⟨h4, h5⟩
    simp only [reschedule_appointment, hfind]
    rw [if_neg (by simp [hown]), if_neg (not_le.mpr hrange),
        if_neg (by simp [hany])]

def apptW3a : Appointment :=
  { id := 1, patient_id := 1, provider_id := 1, start_time := 100,
    end_time := 200, status := "booked", reason := none }

def apptW3b : Appointment :=
  { id := 2, patient_id := 1, provider_id := 1, start_time := 300,
    end_time := 400, status := "booked", reason := none }

def dbW3 : DB :=
  { dbProv with appointments := [apptW3a, apptW3b], next_appt_id := 3 }

/-- C3 witness: a concrete conflict-free reschedule (to a range touching the
other booking's boundary) succeeds in place. -/
theorem C3_witness :
    reschedule_appointment true dbW3 1 1 200 300 =
      (Except.ok { apptW3a with start_time := 200, end_time := 300 },
       dbW3.updateAppt { apptW3a with start_time := 200, end_time := 300 }) :=
  (C3_reschedule_correct true dbW3 1 1 200 300 apptW3a rfl rfl (by decide)).2
    (by decide)

/-! ## C10: provider dashboard id conflation -/

theorem mem_insertByStart {r x : ProviderAppointment}
    {l : List ProviderAppointment} :
    x ∈ insertByStart r l ↔ x = r ∨ x ∈ l := by
  induction l with
  | nil => simp [insertByStart]
  | cons a t ih =>
    simp only [insertByStart]
    split
    · simp [List.mem_cons]
    · simp only [List.mem_cons, ih]
      tauto

theorem mem_sortByStart {x : ProviderAppointment}
    {l : List ProviderAppointment} :
    x ∈ sortByStart l ↔ x ∈ l := by
  induction l with
  | nil => simp [sortByStart]
  | cons a t ih =>
    have hstep : sortByStart (a :: t) = insertByStart a (sortByStart t) := rfl
    rw [hstep, mem_insertByStart, ih, List.mem_cons]

/-- C10: for a user with role `provider`, the dashboard succeeds and returns
exactly the `booked` appointments whose `provider_id` equals the requesting
user's User-table id, and the result is entirely independent of the Provider
table (no link between the User row and any Provider row is consulted). -/
theorem C10_dashboard_id_conflation (db : DB) (current_user : User)
    (hrole : current_user.role = "provider") :
    ∃ rows, get_provider_dashboard db current_user = Except.ok rows ∧
      (∀ r, r ∈ rows ↔ ∃ a ∈ db.appointments,
          a.provider_id = current_user.id ∧ a.status = "booked" ∧
          r = toDashboardRow db a) ∧
      (∀ ps, get_provider_dashboard { db with providers := ps } current_user =
             get_provider_dashboard db current_user) := by
  refine ⟨sortByStart ((db.appointments.filter
      (fun a => a.provider_id == current_user.id && a.status == "booked")).map
      (toDashboardRow db)), ?_, ?_, fun ps => rfl⟩
  · simp [get_provider_dashboard, hrole]
  · intro r
    rw [mem_sortByStart, List.mem_map]
    constructor
    · rintro ⟨a, ha, rfl⟩
      rw [List.mem_filter] at ha
      obtain ⟨hmem, hcond⟩ := ha
      simp only [Bool.and_eq_true, beq_iff_eq] at hcond
      exact ⟨a, hmem, hcond.1, hcond.2, rfl⟩
    · rintro ⟨a, hmem, h1, h2, rfl⟩
      exact ⟨a, List.mem_filter.mpr ⟨hmem, by simp [h1, h2]⟩, rfl⟩

def providerUserW : User :=
  { id := 1, email := "dr@x.com", password_hash := "argon2:pw",
    role := "provider", failed_login_attempts := 0, lockout_until := none,
    last_active := none }

def dbW10 : DB :=
  { dbEmpty with users := [providerUserW],
                 appointments := [apptW3a], next_appt_id := 2 }

/-- C10 witness: concrete dashboard call for a provider-role user. -/
theorem C10_witness :
    ∃ rows, get_provider_dashboard dbW10 providerUserW = Except.ok rows ∧
      (∀ r, r ∈ rows ↔ ∃ a ∈ dbW10.appointments,
          a.provider_id = providerUserW.id ∧ a.status = "booked" ∧
          r = toDashboardRow dbW10 a) ∧
      (∀ ps, get_provider_dashboard { dbW10 with providers := ps } providerUserW =
             get_provider_dashboard dbW10 providerUserW) :=
  C10_dashboard_id_conflation dbW10 providerUserW rfl

/-! ## Per-operation state characterizations -/

/-- Propositional reading of the booking overlap WHERE clause. -/
theorem overlapRow_iff {pid : Nat} {s e : Int} {a : Appointment} :
    overlapRow pid s e a = true ↔
    a.provider_id = pid ∧ a.status = "booked" ∧
    a.start_time < e ∧ s < a.end_time := by
  simp [overlapRow, and_assoc]

/-- The record inserted by a successful booking. -/
def newBookedAppt (db : DB) (uid : Nat) (b : AppointmentBook) : Appointment :=
  { id := db.next_appt_id, patient_id := uid, provider_id := b.provider_id,
    start_time := b.start_time, end_time := b.end_time,
    status := "booked", reason := b.reason }

/-- `book_appointment` either leaves the store unchanged or appends a fresh
`booked` row after a negative overlap check. -/
theorem book_state (o : Bool) (db : DB) (uid : Nat) (b : AppointmentBook) :
    (book_appointment o db uid b).2 = db ∨
    ((book_appointment o db uid b).2 =
       { db with appointments := db.appointments ++ [newBookedAppt db uid b],
                 next_appt_id := db.next_appt_id + 1 } ∧
     db.appointments.any (overlapRow b.provider_id b.start_time b.end_time)
       = false) := by
  cases hp : db.providers.find? (fun p => p.id == b.provider_id) with
  | none => left; simp [book_appointment, hp]
  | some p =>
    by_cases hr : b.start_time ≥ b.end_time
    · left; simp [book_appointment, hp, hr]
    · cases hany : db.appointments.any
          (overlapRow b.provider_id b.start_time b.end_time) with
      | true => left; simp [book_appointment, hp, hr, hany]
      | false =>
        right
        refine ⟨?_, rfl⟩
        simp [book_appointment, hp, hr, hany, newBookedAppt]

/-- `reschedule_appointment` either leaves the store unchanged or replaces
the found row's start/end after a negative overlap check (own id excluded). -/
theorem reschedule_state (o : Bool) (db : DB) (uid aid : Nat) (s e : Int) :
    (reschedule_appointment o db uid aid s e).2 = db ∨
    (∃ appt, db.appointments.find? (fun a => a.id == aid) = some appt ∧
       db.appointments.any (overlapRowExcl appt.provider_id appt.id s e)
         = false ∧
       (reschedule_appointment o db uid aid s e).2 =
         db.updateAppt { appt with start_time := s, end_time := e }) := by
  cases hfind : db.appointments.find? (fun a => a.id == aid) with
  | none => left; simp [reschedule_appointment, hfind]
  | some appt =>
    by_cases hown : appt.patient_id = uid
    · by_cases hr : s ≥ e
      · left; simp [reschedule_appointment, hfind, hown, hr]
      · cases hany : db.appointments.any
            (overlapRowExcl appt.provider_id appt.id s e) with
        | true => left; simp [reschedule_appointment, hfind, hown, hr, hany]
        | false =>
          right
          exact ⟨appt, rfl, hany,
            by simp [reschedule_appointment, hfind, hown, hr, hany]⟩
    · left; simp [reschedule_appointment, hfind, hown]

/-- `cancel_appointment` either leaves the store unchanged or sets the found
row's status to `cancelled`. -/
theorem cancel_state (o : Bool) (db : DB) (uid aid : Nat) :
    (cancel_appointment o db uid aid).2 = db ∨
    (∃ appt, db.appointments.find? (fun a => a.id == aid) = some appt ∧
       (cancel_appointment o db uid aid).2 =
         db.updateAppt { appt with status := "cancelled" }) := by
  cases hfind : db.appointments.find? (fun a => a.id == aid) with
  | none => left; simp [cancel_appointment, hfind]
  | some appt =>
    by_cases hown : appt.patient_id = uid
    · right
      exact ⟨appt, rfl, by simp [cancel_appointment, hfind, hown]⟩
    · left; simp [cancel_appointment, hfind, hown]

/-! ## Invariant preservation -/

/-- An UPDATE-by-id never changes a row's id. -/
theorem updateAppt_fun_id (a2 y : Appointment) :
    (if y.id == a2.id then a2 else y).id = y.id := by
  split
  next h => simp only [beq_iff_eq] at h; exact h.symm
  next => rfl

/-- UPDATE-by-id preserves table well-formedness. -/
theorem updateAppt_WF {db : DB} (a2 : Appointment) (hwf : WFAppointments db) :
    WFAppointments (db.updateAppt a2) := by
  obtain ⟨hbound, hpw⟩ := hwf
  constructor
  · intro x hx
    simp only [DB.updateAppt, List.mem_map] at hx
    obtain ⟨y, hy, rfl⟩ := hx
    show (if y.id == a2.id then a2 else y).id < db.next_appt_id
    rw [updateAppt_fun_id]
    exact hbound y hy
  · show (db.appointments.map fun y => if y.id == a2.id then a2 else y).Pairwise _
    refine List.Pairwise.map _ ?_ hpw
    intro x y hxy
    rw [updateAppt_fun_id, updateAppt_fun_id]
    exact hxy

/-- Booking preserves table well-formedness. -/
theorem book_WF (o : Bool) (db : DB) (uid : Nat) (b : AppointmentBook)
    (hwf : WFAppointments db) : WFAppointments (book_appointment o db uid b).2 := by
  rcases book_state o db uid b with h | ⟨h, _⟩
  · rw [h]; exact hwf
  · rw [h]
    obtain ⟨hbound, hpw⟩ := hwf
    constructor
    · intro x hx
      simp only [List.mem_append, List.mem_singleton] at hx
      rcases hx with hx | rfl
      · show x.id < db.next_appt_id + 1
        have := hbound x hx; omega
      · show db.next_appt_id < db.next_appt_id + 1
        omega
    · show (db.appointments ++ [newBookedAppt db uid b]).Pairwise _
      rw [List.pairwise_append]
      refine ⟨hpw, List.pairwise_singleton _ _, ?_⟩
      intro x hx y hy
      simp only [List.mem_singleton] at hy
      subst hy
      have := hbound x hx
      show x.id ≠ db.next_appt_id
      omega

/-- Rescheduling preserves table well-formedness. -/
theorem reschedule_WF (o : Bool) (db : DB) (uid aid : Nat) (s e : Int)
    (hwf : WFAppointments db) :
    WFAppointments (reschedule_appointment o db uid aid s e).2 := by
  rcases reschedule_state o db uid aid s e with h | ⟨appt, _, _, h⟩
  · rw [h]; exact hwf
  · rw [h]; exact updateAppt_WF _ hwf

/-- Cancelling preserves table well-formedness. -/
theorem cancel_WF (o : Bool) (db : DB) (uid aid : Nat)
    (hwf : WFAppointments db) :
    WFAppointments (cancel_appointment o db uid aid).2 := by
  rcases cancel_state o db uid aid with h | ⟨appt, _, h⟩
  · rw [h]; exact hwf
  · rw [h]; exact updateAppt_WF _ hwf

/-- Every scheduling operation preserves table well-formedness. -/
theorem applyOp_WF (db : DB) (op : Op) (hwf : WFAppointments db) :
    WFAppointments (applyOp db op) := by
  cases op with
  | book uid b => exact book_WF true db uid b hwf
  | reschedule uid aid s e => exact reschedule_WF true db uid aid s e hwf
  | cancel uid aid => exact cancel_WF true db uid aid hwf

/-- Booking preserves the no-overlap invariant. -/
theorem book_NoOverlap (o : Bool) (db : DB) (uid : Nat) (b : AppointmentBook)
    (hno : NoOverlap db) : NoOverlap (book_appointment o db uid b).2 := by
  rcases book_state o db uid b with h | ⟨h, hany⟩
  · rw [h]; exact hno
  · rw [h]
    have hanyP : ∀ z ∈ db.appointments, z.provider_id = b.provider_id →
        z.status = "booked" →
        ¬(z.start_time < b.end_time ∧ b.start_time < z.end_time) := by
      rw [List.any_eq_false] at hany
      intro z hz h1 h2 h3
      exact hany z hz (overlapRow_iff.mpr ⟨h1, h2, h3.1, h3.2⟩)
    intro x hx y hy hid hprov hxs hys
    simp only [List.mem_append, List.mem_singleton] at hx hy
    rcases hx with hx | rfl <;> rcases hy with hy | rfl
    · exact hno x hx y hy hid hprov hxs hys
    · exact fun hc => hanyP x hx hprov hxs ⟨hc.1, hc.2⟩
    · exact fun hc => hanyP y hy hprov.symm hys ⟨hc.2, hc.1⟩
    · exact absurd rfl hid

/-- Rescheduling preserves the no-overlap invariant. -/
theorem reschedule_NoOverlap (o : Bool) (db : DB) (uid aid : Nat) (s e : Int)
    (hwf : WFAppointments db) (hno : NoOverlap db) :
    NoOverlap (reschedule_appointment o db uid aid s e).2 := by
  rcases reschedule_state o db uid aid s e with h | ⟨appt, hfind, hany, h⟩
  · rw [h]; exact hno
  · rw [h]
    obtain ⟨hbound, hpw⟩ := hwf
    have hmem := List.mem_of_find?_eq_some hfind
    have hanyP : ∀ z ∈ db.appointments, z.provider_id = appt.provider_id →
        z.status = "booked" → z.id ≠ appt.id →
        ¬(z.start_time < e ∧ s < z.end_time) := by
      rw [List.any_eq_false] at hany
      intro z hz h1 h2 h3 h4
      exact hany z hz (overlapRowExcl_iff.mpr ⟨h1, h2, h3, h4.1, h4.2⟩)
    intro x hx y hy hid hprov hxs hys
    simp only [DB.updateAppt, List.mem_map] at hx hy
    obtain ⟨x0, hx0, rfl⟩ := hx
    obtain ⟨y0, hy0, rfl⟩ := hy
    by_cases hxid : x0.id = appt.id <;> by_cases hyid : y0.id = appt.id
    · rw [if_pos (by simp [hxid]), if_pos (by simp [hyid])] at hid
      exact absurd rfl hid
    · rw [if_pos (by simp [hxid])] at hprov hxs hid ⊢
      rw [if_neg (by simp [hyid])] at hprov hys hid ⊢
      intro hc
      exact hanyP y0 hy0 hprov.symm hys hyid ⟨hc.2, hc.1⟩
    · rw [if_neg (by simp [hxid])] at hprov hxs hid ⊢
      rw [if_pos (by simp [hyid])] at hprov hys hid ⊢
      intro hc
      exact hanyP x0 hx0 hprov hxs hxid ⟨hc.1, hc.2⟩
    · rw [if_neg (by simp [hxid])] at hprov hxs hid ⊢
      rw [if_neg (by simp [hyid])] at hprov hys hid ⊢
      exact hno x0 hx0 y0 hy0 hid hprov hxs hys

/-- Cancelling preserves the no-overlap invariant. -/
theorem cancel_NoOverlap (o : Bool) (db : DB) (uid aid : Nat)
    (hwf : WFAppointments db) (hno : NoOverlap db) :
    NoOverlap (cancel_appointment o db uid aid).2 := by
  rcases cancel_state o db uid aid with h | ⟨appt, hfind, h⟩
  · rw [h]; exact hno
  · rw [h]
    obtain ⟨hbound, hpw⟩ := hwf
    have hmem := List.mem_of_find?_eq_some hfind
    intro x hx y hy hid hprov hxs hys
    simp only [DB.updateAppt, List.mem_map] at hx hy
    obtain ⟨x0, hx0, rfl⟩ := hx
    obtain ⟨y0, hy0, rfl⟩ := hy
    by_cases hxid : x0.id = appt.id <;> by_cases hyid : y0.id = appt.id
    · rw [if_pos (by simp [hxid]), if_pos (by simp [hyid])] at hid
      exact absurd rfl hid
    · rw [if_pos (by simp [hxid])] at hxs
      exact absurd hxs (by simp)
    · rw [if_pos (by simp [hyid])] at hys
      exact absurd hys (by simp)
    · rw [if_neg (by simp [hxid])] at hprov hxs hid ⊢
      rw [if_neg (by simp [hyid])] at hprov hys hid ⊢
      exact hno x0 hx0 y0 hy0 hid hprov hxs hys

/-- Every scheduling operation preserves the no-overlap invariant. -/
theorem applyOp_NoOverlap (db : DB) (op : Op) (hwf : WFAppointments db)
    (hno : NoOverlap db) : NoOverlap (applyOp db op) := by
  cases op with
  | book uid b => exact book_NoOverlap true db uid b hno
  | reschedule uid aid s e => exact reschedule_NoOverlap true db uid aid s e hwf hno
  | cancel uid aid => exact cancel_NoOverlap true db uid aid hwf hno

/-! ## C1: the no-overlap invariant -/

/-- The no-overlap invariant is inductive over operation sequences. -/
theorem applyOps_NoOverlap (ops : List Op) :
    ∀ db : DB, WFAppointments db → NoOverlap db → NoOverlap (applyOps db ops) := by
  induction ops with
  | nil => intro db _ h; exact h
  | cons op rest ih =>
    intro db hwf hno
    exact ih (applyOp db op) (applyOp_WF db op hwf) (applyOp_NoOverlap db op hwf hno)

/-- C1: (i) from any well-formed state satisfying the no-overlap invariant,
every sequence of book/reschedule/cancel operations preserves it: no two
`booked` appointments of one provider ever have intersecting half-open
ranges; (ii) a booking whose range merely touches every existing `booked`
appointment of the provider at the boundary (or is disjoint from it) is
accepted; (iii) a booking overlapping an existing `booked` appointment of
the provider is rejected with `slotConflict` before any state change. -/
theorem C1_no_overlap_invariant :
    (∀ (db : DB) (ops : List Op), WFAppointments db → NoOverlap db →
       NoOverlap (applyOps db ops)) ∧
    (∀ (o : Bool) (db : DB) (uid : Nat) (b : AppointmentBook),
       (∃ p ∈ db.providers, p.id = b.provider_id) →
       b.start_time < b.end_time →
       (∀ a ∈ db.appointments, a.provider_id = b.provider_id →
          a.status = "booked" →
          a.end_time ≤ b.start_time ∨ b.end_time ≤ a.start_time) →
       (book_appointment o db uid b).1 = Except.ok (newBookedAppt db uid b)) ∧
    (∀ (o : Bool) (db : DB) (uid : Nat) (b : AppointmentBook),
       (∃ p ∈ db.providers, p.id = b.provider_id) →
       b.start_time < b.end_time →
       (∃ a ∈ db.appointments, a.provider_id = b.provider_id ∧
          a.status = "booked" ∧ a.start_time < b.end_time ∧
          b.start_time < a.end_time) →
       book_appointment o db uid b = (Except.error ApiError.slotConflict, db)) := by
  refine ⟨fun db ops hwf hno => applyOps_NoOverlap ops db hwf hno, ?_, ?_⟩
  · intro o db uid b hp hrange hfree
    obtain ⟨p, hpm, hpid⟩ := hp
    obtain ⟨q, hq⟩ : ∃ a, db.providers.find? (fun x => x.id == b.provider_id) = some a :=
      exists_find?_of_mem hpm (by simp [hpid])
    have hany : db.appointments.any
        (overlapRow b.provider_id b.start_time b.end_time) = false := by
      rw [List.any_eq_false]
      intro z hz
      simp only [overlapRow_iff]
      rintro ⟨h1, h2, h3, h4⟩
      rcases hfree z hz h1 h2 with h5 | h5 <;> omega
    simp only [book_appointment, hq]
    rw [if_neg (not_le.mpr hrange), if_neg (by simp [hany])]
    rfl
  · intro o db uid b hp hrange hconf
    obtain ⟨p, hpm, hpid⟩ := hp
    obtain ⟨q, hq⟩ : ∃ a, db.providers.find? (fun x => x.id == b.provider_id) = some a :=
      exists_find?_of_mem hpm (by simp [hpid])
    have hany : db.appointments.any
        (overlapRow b.provider_id b.start_time b.end_time) = true := by
      rw [List.any_eq_true]
      obtain ⟨a, ha, h1, h2, h3, h4⟩ := hconf
      exact ⟨a, ha, overlapRow_iff.mpr ⟨h1, h2, h3, h4⟩⟩
    simp only [book_appointment, hq]
    rw [if_neg (not_le.mpr hrange), if_pos hany]

def opsW1 : List Op :=
  [Op.book 1 { provider_id := 1, start_time := 100, end_time := 200, reason := none },
   Op.book 1 { provider_id := 1, start_time := 150, end_time := 250, reason := none },
   Op.book 1 { provider_id := 1, start_time := 200, end_time := 300, reason := none }]

/-- C1 witness: a concrete sequence (book, overlapping book, touching book)
executed from an empty schedule keeps the invariant. -/
theorem C1_witness : NoOverlap (applyOps dbProv opsW1) :=
  C1_no_overlap_invariant.1 dbProv opsW1
    (by refine ⟨?_, ?_⟩ <;> simp [dbProv, dbEmpty])
    (by intro a ha; simp [dbProv, dbEmpty] at ha)

/-! ## C8: cancelled appointments -/

/-- C8 counterexample: rescheduling an appointment whose status is already
`cancelled` succeeds and changes its `start_time`/`end_time`: a cancelled
appointment's record can still change. -/
theorem C8_counterexample :
    apptW9.status = "cancelled" ∧
    (applyOp dbW9 (Op.reschedule 1 1 300 400)).appointments =
      [{ apptW9 with start_time := 300, end_time := 400 }] ∧
    (300 : Int) ≠ apptW9.start_time := ⟨rfl, rfl, by decide⟩

/-- One scheduling operation keeps a cancelled row cancelled (and keeps its
id, patient, provider and reason). -/
theorem applyOp_cancelled_frozen (db : DB) (op : Op) (a0 : Appointment)
    (hwf : WFAppointments db)
    (h : ∃ a ∈ db.appointments, a.id = a0.id ∧ a.status = "cancelled" ∧
         a.patient_id = a0.patient_id ∧ a.provider_id = a0.provider_id ∧
         a.reason = a0.reason) :
    ∃ a ∈ (applyOp db op).appointments, a.id = a0.id ∧ a.status = "cancelled" ∧
      a.patient_id = a0.patient_id ∧ a.provider_id = a0.provider_id ∧
      a.reason = a0.reason := by
  obtain ⟨hbound, hpw⟩ := hwf
  obtain ⟨a, ha, hid, hst, hpat, hprov, hres⟩ := h
  cases op with
  | book uid b =>
    rcases book_state true db uid b with hs | ⟨hs, _⟩
    · show ∃ x ∈ (book_appointment true db uid b).2.appointments, _
      rw [hs]
      exact ⟨a, ha, hid, hst, hpat, hprov, hres⟩
    · show ∃ x ∈ (book_appointment true db uid b).2.appointments, _
      rw [hs]
      exact ⟨a, List.mem_append_left _ ha, hid, hst, hpat, hprov, hres⟩
  | reschedule uid aid s e =>
    rcases reschedule_state true db uid aid s e with hs | ⟨appt, hfind, _, hs⟩
    · show ∃ x ∈ (reschedule_appointment true db uid aid s e).2.appointments, _
      rw [hs]
      exact ⟨a, ha, hid, hst, hpat, hprov, hres⟩
    · show ∃ x ∈ (reschedule_appointment true db uid aid s e).2.appointments, _
      rw [hs]
      by_cases haid : a.id = appt.id
      · have hae : a = appt :=
          appt_id_unique hpw ha (List.mem_of_find?_eq_some hfind) haid
        refine ⟨{ appt with start_time := s, end_time := e }, ?_, ?_, ?_, ?_, ?_, ?_⟩
        · simp only [DB.updateAppt, List.mem_map]
          exact ⟨a, ha, by rw [if_pos (by simp [haid])]⟩
        · show appt.id = a0.id
          rw [← hae]; exact hid
        · show appt.status = "cancelled"
          rw [← hae]; exact hst
        · show appt.patient_id = a0.patient_id
          rw [← hae]; exact hpat
        · show appt.provider_id = a0.provider_id
          rw [← hae]; exact hprov
        · show appt.reason = a0.reason
          rw [← hae]; exact hres
      · refine ⟨a, ?_, hid, hst, hpat, hprov, hres⟩
        simp only [DB.updateAppt, List.mem_map]
        exact ⟨a, ha, by rw [if_neg (by simp [haid])]⟩
  | cancel uid aid =>
    rcases cancel_state true db uid aid with hs | ⟨appt, hfind, hs⟩
    · show ∃ x ∈ (cancel_appointment true db uid aid).2.appointments, _
      rw [hs]
      exact ⟨a, ha, hid, hst, hpat, hprov, hres⟩
    · show ∃ x ∈ (cancel_appointment true db uid aid).2.appointments, _
      rw [hs]
      by_cases haid : a.id = appt.id
      · have hae : a = appt :=
          appt_id_unique hpw ha (List.mem_of_find?_eq_some hfind) haid
        refine ⟨{ appt with status := "cancelled" }, ?_, ?_, rfl, ?_, ?_, ?_⟩
        · simp only [DB.updateAppt, List.mem_map]
          exact ⟨a, ha, by rw [if_pos (by simp [haid])]⟩
        · show appt.id = a0.id
          rw [← hae]; exact hid
        · show appt.patient_id = a0.patient_id
          rw [← hae]; exact hpat
        · show appt.provider_id = a0.provider_id
          rw [← hae]; exact hprov
        · show appt.reason = a0.reason
          rw [← hae]; exact hres
      · refine ⟨a, ?_, hid, hst, hpat, hprov, hres⟩
        simp only [DB.updateAppt, List.mem_map]
        exact ⟨a, ha, by rw [if_neg (by simp [haid])]⟩

/-- Cancelled rows stay cancelled across whole operation sequences. -/
theorem applyOps_cancelled_frozen (ops : List Op) (a0 : Appointment) :
    ∀ db : DB, WFAppointments db →
      (∃ a ∈ db.appointments, a.id = a0.id ∧ a.status = "cancelled" ∧
         a.patient_id = a0.patient_id ∧ a.provider_id = a0.provider_id ∧
         a.reason = a0.reason) →
      ∃ a ∈ (applyOps db ops).appointments, a.id = a0.id ∧
        a.status = "cancelled" ∧ a.patient_id = a0.patient_id ∧
        a.provider_id = a0.provider_id ∧ a.reason = a0.reason := by
  induction ops with
  | nil => intro db _ h; exact h
  | cons op rest ih =>
    intro db hwf h
    exact ih (applyOp db op) (applyOp_WF db op hwf)
      (applyOp_cancelled_frozen db op a0 hwf h)

/-- C8 (amended): once an appointment is cancelled, its status never changes
again under any sequence of book/reschedule/cancel operations — the row
keeps status `cancelled` and its id, patient_id, provider_id and reason
forever, and is never removed; only reschedule may still change its
start_time/end_time (see the counterexample). -/
theorem C8_cancelled_stays_cancelled (db : DB) (a0 : Appointment)
    (ops : List Op) (hwf : WFAppointments db) (hmem : a0 ∈ db.appointments)
    (hst : a0.status = "cancelled") :
    ∃ a ∈ (applyOps db ops).appointments, a.id = a0.id ∧
      a.status = "cancelled" ∧ a.patient_id = a0.patient_id ∧
      a.provider_id = a0.provider_id ∧ a.reason = a0.reason :=
  applyOps_cancelled_frozen ops a0 db hwf ⟨a0, hmem, rfl, hst, rfl, rfl, rfl⟩

/-- C8 witness: a concrete cancelled appointment stays cancelled across a
subsequent booking and a repeated cancel. -/
theorem C8_witness :
    ∃ a ∈ (applyOps dbW9
        [Op.book 1 { provider_id := 1, start_time := 300, end_time := 400,
                     reason := none },
         Op.cancel 1 1]).appointments,
      a.id = apptW9.id ∧ a.status = "cancelled" ∧
      a.patient_id = apptW9.patient_id ∧ a.provider_id = apptW9.provider_id ∧
      a.reason = apptW9.reason :=
  C8_cancelled_stays_cancelled dbW9 apptW9 _
    (by refine ⟨?_, ?_⟩ <;> simp [dbW9, dbProv, dbEmpty, apptW9])
    (by simp [dbW9, dbProv, dbEmpty]) rfl
